import Mathlib

/-!
Shallow embedding of `library/junos_get_table.py` (ansible-junos-stdlib).

The module has two parts:

* `juniper_items_to_list_of_dicts` (lines 141-159): the normalizer.  It
  iterates over `data.items()` — a list of `(table_key, table_fields)`
  tuples, where `table_fields` is a list of `(key, value)` tuples — and for
  each item builds a Python dict `temp` by successive assignment
  `temp[normalized_key] = normalized_value`, appending each dict to
  `list_of_resources`.

* `main` (lines 162-235): the orchestrator.  It validates the `file`
  parameter's extension, opens a connection (`Device(...).open()`), loads a
  YAML table definition file through `FactoryLoader` into `globals()`,
  looks the requested table up in `globals()`, runs it, optionally
  normalizes, and reports through `module.exit_json` / `module.fail_json`.

Python dicts are modelled as association lists with assignment semantics:
assigning to an existing key overwrites its value in place, assigning to a
fresh key appends it at the end.  This reproduces every observable of a
dict used by the module (lookup, key set, key uniqueness, iteration order
under CPython's insertion-order behaviour).
-/

namespace JunosGetTable

/-- Lookup in an association list: the value of the first pair whose key is
`k` (Python `d[k]` / `k in d`; the dict invariant that keys are unique is
maintained by `dictInsert`, so "first" is "the" occurrence). -/
def alookup {α β : Type} [DecidableEq α] : List (α × β) → α → Option β
  | [], _ => none
  | p :: t, k => if p.1 = k then some p.2 else alookup t k

/-- Python dict assignment `d[k] = v` on the association-list model:
overwrite the existing occurrence of the key in place, append the pair at
the end when the key is fresh. -/
def dictInsert {α β : Type} [DecidableEq α] : List (α × β) → α → β → List (α × β)
  | [], k, v => [(k, v)]
  | p :: t, k, v => if p.1 = k then (k, v) :: t else p :: dictInsert t k v

/-- The dict `temp` built by the inner loop of
`juniper_items_to_list_of_dicts` for one item:
`for normalized_key, normalized_value in table_fields: temp[normalized_key] = normalized_value`
starting from `temp = {}`. -/
def buildRecord (table_fields : List (String × String)) : List (String × String) :=
  table_fields.foldl (fun temp kv => dictInsert temp kv.1 kv.2) []

/-- Lines 141-159: `juniper_items_to_list_of_dicts(data)`.  `data.items()`
is a list of `(table_key, table_fields)` tuples; `table_key` is unused
("not using at all"); each item's fields are folded into a dict which is
appended to `list_of_resources`. -/
def juniper_items_to_list_of_dicts
    (data : List (String × List (String × String))) :
    List (List (String × String)) :=
  data.foldl (fun list_of_resources item =>
    list_of_resources ++ [buildRecord item.2]) []

/-- The keys of a record, in dict iteration order. -/
def recordKeys (r : List (String × String)) : List String :=
  r.map Prod.fst

/-! ### Dynamic (untyped) model of the normalizer

`juniper_items_to_list_of_dicts` is dynamically typed Python: nothing in
the code checks that each element of `data.items()` is a 2-tuple or that
`table_fields` is a sequence of 2-tuples.  `PyVal` models the values the
function can actually receive (strings, and tuples/lists of values);
`unpack2` models tuple unpacking `a, b = x` (a sequence of length exactly
2 succeeds, anything else raises `ValueError`; a 2-character string also
unpacks, into its characters); `pyIter` models `for ... in x` over the two
shapes. -/

/-- A dynamic Python value: a string, or a tuple/list of values. -/
inductive PyVal : Type where
  | str : String → PyVal
  | tup : List PyVal → PyVal

mutual

/-- Structural equality of dynamic values (Python `==` on the modelled
shapes), decidably. -/
def PyVal.decEq : (a b : PyVal) → Decidable (a = b)
  | .str a, .str b =>
      if h : a = b then .isTrue (by rw [h])
      else .isFalse (by intro hc; injection hc; contradiction)
  | .str _, .tup _ => .isFalse (by intro hc; exact PyVal.noConfusion hc)
  | .tup _, .str _ => .isFalse (by intro hc; exact PyVal.noConfusion hc)
  | .tup a, .tup b =>
      match PyVal.decEqList a b with
      | .isTrue h => .isTrue (by rw [h])
      | .isFalse h => .isFalse (by intro hc; injection hc; contradiction)

/-- Structural equality of lists of dynamic values, decidably. -/
def PyVal.decEqList : (a b : List PyVal) → Decidable (a = b)
  | [], [] => .isTrue rfl
  | [], _ :: _ => .isFalse (by intro h; exact List.noConfusion h)
  | _ :: _, [] => .isFalse (by intro h; exact List.noConfusion h)
  | a :: as, b :: bs =>
      match PyVal.decEq a b, PyVal.decEqList as bs with
      | .isTrue h1, .isTrue h2 => .isTrue (by rw [h1, h2])
      | .isFalse h1, _ => .isFalse (by intro hc; injection hc; contradiction)
      | _, .isFalse h2 => .isFalse (by intro hc; injection hc; contradiction)

end

instance : DecidableEq PyVal := PyVal.decEq

/-- Python tuple unpacking `a, b = x`: succeeds on a 2-element
tuple/list (and on a 2-character string, which unpacks into its
characters); every other shape raises `ValueError`. -/
def unpack2 : PyVal → Except String (PyVal × PyVal)
  | .tup [a, b] => .ok (a, b)
  | .tup _ => .error "ValueError: unpack"
  | .str s =>
    match s.data with
    | [c1, c2] => .ok (.str (String.mk [c1]), .str (String.mk [c2]))
    | _ => .error "ValueError: unpack"

/-- Python iteration `for ... in x` over the modelled shapes: a tuple/list
yields its elements, a string yields its characters. -/
def pyIter : PyVal → List PyVal
  | .tup l => l
  | .str s => s.data.map fun c => PyVal.str (String.mk [c])

/-- The body of the inner loop (lines 154-157) under dynamic semantics:
unpack the `(normalized_key, normalized_value)` pair, then assign
`temp[normalized_key] = normalized_value`. -/
def dynFieldStep (temp : List (PyVal × PyVal)) (kv : PyVal) :
    Except String (List (PyVal × PyVal)) := do
  let (normalized_key, normalized_value) ← unpack2 kv
  pure (dictInsert temp normalized_key normalized_value)

/-- The body of the outer loop (lines 147-158) under dynamic semantics:
unpack the `(table_key, table_fields)` tuple (the key is unused), build
`temp` by iterating the fields, append it to `list_of_resources`. -/
def dynItemStep (list_of_resources : List (List (PyVal × PyVal))) (item : PyVal) :
    Except String (List (List (PyVal × PyVal))) := do
  let (_table_key, table_fields) ← unpack2 item
  let temp ← (pyIter table_fields).foldlM dynFieldStep []
  pure (list_of_resources ++ [temp])

/-- Lines 141-159 again, but at the dynamic level: the same loops with
Python's unpacking semantics made explicit, so that structurally
malformed items surface as the exception the interpreter would raise.
The argument is the list `data.items()`. -/
def juniper_items_to_list_of_dicts_dyn (data_items : List PyVal) :
    Except String (List (List (PyVal × PyVal))) :=
  data_items.foldlM dynItemStep []

/-- A well-formed `(table_key, table_fields)` item rendered as the dynamic
value PyEZ hands the function: a 2-tuple of the key and the list of
`(field, value)` 2-tuples. -/
def encodeItem (item : String × List (String × String)) : PyVal :=
  .tup [.str item.1, .tup (item.2.map fun kv => PyVal.tup [.str kv.1, .str kv.2])]

/-- A typed record rendered as a dict over dynamic values. -/
def encodeRecord (r : List (String × String)) : List (PyVal × PyVal) :=
  r.map fun kv => (PyVal.str kv.1, PyVal.str kv.2)

/-! ### Model of `main` (lines 162-235)

`main` is glue around external collaborators (AnsibleModule, PyEZ
`Device`, `yaml`, `FactoryLoader`), so the embedding makes the outcome of
each collaborator call an input (`Env`) and computes the observables the
claims are about: the terminal outcome (`module.exit_json` /
`module.fail_json` call) and the connection trace.

Two facts about the source drive the control flow:

* `module.fail_json` reports and then calls `sys.exit`, which raises
  `SystemExit`.  `SystemExit` derives from `BaseException`, not
  `Exception`, so the `except Exception` handler at line 227 does NOT
  catch it: a `fail_json` issued inside the `try` block (lines 215 and
  220) terminates `main` without reaching either `dev.close()`.

* the requested table is looked up as `globals()[args['table']]`
  (line 218).  `globals()` holds the module's own top-level bindings —
  the interpreter dunders, the imports and definitions of this file, and
  everything bound by line 237's `from ansible.module_utils.basic import *`
  — plus whatever `FactoryLoader` loaded from the YAML file, so a
  requested name that is absent from the file but collides with any such
  binding (e.g. `Device`, `__name__`, `re`) does not raise `KeyError`;
  instead the binding is called as if it were a table class and the
  resulting exception lands in the generic `except Exception` handler. -/

/-- The value passed to `module.exit_json` as `resource`: either the
normalized list of dicts or the raw `data.items()` list, per
`response_type` (lines 223-226). -/
inductive ModuleResult : Type where
  | dicts : List (List (String × String)) → ModuleResult
  | items : List (String × List (String × String)) → ModuleResult
deriving DecidableEq

/-- The terminal call of one invocation: `module.fail_json(msg=...)`,
the richer `module.fail_json(msg=..., table=..., file=...)` of line 220,
or `module.exit_json(resource=...)`. -/
inductive Outcome : Type where
  | failJson : String → Outcome
  | failJsonTable : String → String → String → Outcome
  | exitJson : ModuleResult → Outcome
deriving DecidableEq

/-- Whether the outcome is the line-220 `SchemaNotFound` report
(`fail_json` carrying `table=` and `file=`). -/
def isSchemaNotFound : Outcome → Bool
  | .failJsonTable _ _ _ => true
  | _ => false

/-- Connection/file observables of one invocation: whether
`Device(...).open()` was reached, whether it succeeded, whether
`dev.close()` was executed before the terminal call, and whether
`open(file_name)` was reached. -/
structure Trace where
  connTried : Bool
  connOpened : Bool
  connClosed : Bool
  fileOpenTried : Bool
deriving DecidableEq

/-- Outcome of `FactoryLoader().load(yaml.load(open(file_name).read()))`
(lines 212-213): `ioError` when `open`/`read` raises `IOError` (caught by
the inner `except IOError`), `loadError` when `yaml.load` or
`FactoryLoader` raises some other exception (caught only by the outer
`except Exception`), or the list of table/view names the loader binds into
`globals()`. -/
inductive FileLoadRes : Type where
  | ioError : FileLoadRes
  | loadError : String → FileLoadRes
  | ok : List String → FileLoadRes

/-- Module parameters plus the outcomes of the collaborator calls:
`openRes` for `Device(host, ...).open()`, `fileRes` for reading and
loading the YAML file, `getRes` for constructing the looked-up table and
running `data.get()` (its `.ok` payload is the `data.items()` list), and
`preGlobalErr` for the message of the exception raised when a colliding
global binding is called as a table.  `starImportGlobals` is the set of
names bound by line 237's `from ansible.module_utils.basic import *`:
that module declares no `__all__` and its contents vary with the
installed Ansible version, so the embedding takes the set as an input
rather than enumerating it (it always holds at least `AnsibleModule`, and
typically `json`, `re`, `sys`, `shlex`, `subprocess`, ...).  `user`,
`passwd`, `port` and `logfile` only feed collaborators (connection
arguments, logging) and do not influence the modelled observables. -/
structure Env where
  hasPyez : Bool
  host : String
  user : String
  passwd : String
  port : Nat
  logfile : Option String
  file : String
  path : String
  table : String
  response_type : String
  openRes : Except String Unit
  fileRes : FileLoadRes
  getRes : Except String (List (String × List (String × String)))
  preGlobalErr : String
  starImportGlobals : List String

/-- The names the script's own statements bind in `globals()` by the time
`main` runs: the interpreter-provided dunders, the three doc strings, the
imports of lines 118-129 (with `Device`, `VERSION`, `tables_dir` present
when `HAS_PYEZ`), the module-level variables, and the two functions.  The
additional names bound by line 237's star import are collaborator data
and live in `Env.starImportGlobals`; the full namespace `main` looks
tables up in is the union of the two. -/
def module_globals : List String :=
  ["__builtins__", "__doc__", "__file__", "__name__", "__package__",
   "DOCUMENTATION", "EXAMPLES", "RETURN", "LooseVersion", "logging", "os",
   "etree", "E", "FactoryLoader", "yaml", "Device", "VERSION", "tables_dir",
   "HAS_PYEZ", "TABLE_PATH", "CHOICES", "juniper_items_to_list_of_dicts",
   "main"]

/-- Python `str.endswith` (line 188): a character-level suffix test.
(Defined here rather than through `String.endsWith`, whose byte-index
recursion is opaque to kernel evaluation; on the modelled strings the two
agree.) -/
def endswith (s post : String) : Bool :=
  post.data.isSuffixOf s.data

/-- Python `str.startswith`, character-level, for the same reason. -/
def startswith (s pre : String) : Bool :=
  pre.data.isPrefixOf s.data

/-- `os.path.join(path, file)` restricted to the shapes the module uses
(an absolute second component wins; otherwise one separator is placed
between the components). -/
def os_path_join (path file : String) : String :=
  if startswith file "/" then file
  else if endswith path "/" ∨ path = "" then path ++ file
  else path ++ "/" ++ file

/-- Lines 162-235: `main()`.  Control flow in source order:
HAS_PYEZ guard (line 180), `.yml` extension guard (line 188),
`Device(...).open()` (line 200) with its `except` (line 202), then the
outer `try`: file load (lines 210-215, `fail_json` on `IOError`
terminates without closing — SystemExit), table lookup in `globals()`
(lines 217-221, `fail_json` on `KeyError` likewise terminates without
closing), `data.get()` and response shaping (lines 222-226), the
`except Exception` handler that closes and fails (lines 227-231), and the
success path that closes and exits (lines 233-235). -/
def main (e : Env) : Outcome × Trace :=
  if e.hasPyez = false then
    (.failJson "junos-eznc >= 1.2.2 is required for this module",
     ⟨false, false, false, false⟩)
  else if (endswith e.file ".yml") = false then
    (.failJson "file must end with .yml extension", ⟨false, false, false, false⟩)
  else
    match e.openRes with
    | .error err =>
        (.failJson ("unable to connect to " ++ e.host ++ ": " ++ err),
         ⟨true, false, false, false⟩)
    | .ok _ =>
        let file_name := os_path_join e.path e.file
        match e.fileRes with
        | .ioError =>
            (.failJson ("Unable to find file: " ++ file_name),
             ⟨true, true, false, true⟩)
        | .loadError err =>
            (.failJson ("Uncaught exception - please report: " ++ err),
             ⟨true, true, true, true⟩)
        | .ok loaded_tables =>
            if e.table ∈ loaded_tables then
              match e.getRes with
              | .error err =>
                  (.failJson ("Uncaught exception - please report: " ++ err),
                   ⟨true, true, true, true⟩)
              | .ok data =>
                  let resource :=
                    if e.response_type = "list_of_dicts" then
                      ModuleResult.dicts (juniper_items_to_list_of_dicts data)
                    else
                      ModuleResult.items data
                  (.exitJson resource, ⟨true, true, true, true⟩)
            else if e.table ∈ module_globals ∨ e.table ∈ e.starImportGlobals then
              (.failJson ("Uncaught exception - please report: " ++ e.preGlobalErr),
               ⟨true, true, true, true⟩)
            else
              (.failJsonTable "Unable to find Table in provided yaml file"
                 e.table file_name,
               ⟨true, true, false, true⟩)

section DictLemmas

variable {α β : Type} [DecidableEq α]

theorem alookup_append (l l' : List (α × β)) (k : α) :
    alookup (l ++ l') k = (alookup l k).or (alookup l' k) := by
  induction l with
  | nil => simp [alookup]
  | cons p t ih =>
    by_cases h : p.1 = k <;> simp [alookup, h, ih]

theorem alookup_eq_none_iff (l : List (α × β)) (k : α) :
    alookup l k = none ↔ k ∉ l.map Prod.fst := by
  induction l with
  | nil => simp [alookup]
  | cons p t ih =>
    simp only [alookup, List.map_cons, List.mem_cons]
    by_cases h : p.1 = k
    · simp [h]
    · rw [if_neg h]
      constructor
      · intro hn hmem
        rcases hmem with hmem | hmem
        · exact h hmem.symm
        · exact (ih.mp hn) hmem
      · intro hn
        exact ih.mpr fun hm => hn (Or.inr hm)

theorem alookup_dictInsert_self (d : List (α × β)) (k : α) (v : β) :
    alookup (dictInsert d k v) k = some v := by
  induction d with
  | nil => simp [dictInsert, alookup]
  | cons p t ih =>
    by_cases h : p.1 = k <;> simp [dictInsert, alookup, h, ih]

theorem alookup_dictInsert_ne (d : List (α × β)) (k k' : α) (v : β) (hne : k' ≠ k) :
    alookup (dictInsert d k v) k' = alookup d k' := by
  induction d with
  | nil => simp [dictInsert, alookup, Ne.symm hne]
  | cons p t ih =>
    by_cases h : p.1 = k
    · subst h
      simp [dictInsert, alookup, Ne.symm hne, hne]
    · by_cases h' : p.1 = k' <;> simp [dictInsert, alookup, h, h', ih, hne]

theorem keys_dictInsert (d : List (α × β)) (k : α) (v : β) :
    (dictInsert d k v).map Prod.fst =
      if k ∈ d.map Prod.fst then d.map Prod.fst else d.map Prod.fst ++ [k] := by
  induction d with
  | nil => simp [dictInsert]
  | cons p t ih =>
    by_cases h : p.1 = k
    · simp [dictInsert, h]
    · have hk : (k ∈ p.1 :: t.map Prod.fst) ↔ k ∈ t.map Prod.fst := by
        simp [Ne.symm h]
      by_cases hm : k ∈ t.map Prod.fst
      · simp [dictInsert, h, ih, hm, hk]
      · simp [dictInsert, h, ih, hm, hk]

theorem nodup_keys_dictInsert (d : List (α × β)) (k : α) (v : β)
    (h : (d.map Prod.fst).Nodup) : ((dictInsert d k v).map Prod.fst).Nodup := by
  rw [keys_dictInsert]
  by_cases hk : k ∈ d.map Prod.fst
  · simpa [hk]
  · simp [hk, h, List.nodup_append]

theorem toFinset_keys_dictInsert (d : List (α × β)) (k : α) (v : β) :
    ((dictInsert d k v).map Prod.fst).toFinset =
      insert k (d.map Prod.fst).toFinset := by
  rw [keys_dictInsert]
  by_cases hk : k ∈ d.map Prod.fst
  · rw [if_pos hk]
    ext a
    simp only [Finset.mem_insert, List.mem_toFinset]
    constructor
    · exact fun h => Or.inr h
    · rintro (rfl | h)
      · exact hk
      · exact h
  · ext a
    simp [hk, or_comm]

theorem dictInsert_of_fresh (d : List (α × β)) (k : α) (v : β)
    (h : k ∉ d.map Prod.fst) : dictInsert d k v = d ++ [(k, v)] := by
  induction d with
  | nil => simp [dictInsert]
  | cons p t ih =>
    simp only [List.map_cons, List.mem_cons] at h
    push_neg at h
    rw [dictInsert, if_neg (fun hp => h.1 hp.symm), ih h.2]
    simp

end DictLemmas

section NormalizerLemmas

variable {α β : Type} [DecidableEq α]

theorem foldl_append_singleton {γ δ : Type} (g : γ → δ) (init : List δ)
    (l : List γ) :
    l.foldl (fun acc x => acc ++ [g x]) init = init ++ l.map g := by
  induction l generalizing init with
  | nil => simp
  | cons x t ih => simp [ih]

theorem juniper_items_to_list_of_dicts_eq_map
    (data : List (String × List (String × String))) :
    juniper_items_to_list_of_dicts data =
      data.map fun item => buildRecord item.2 := by
  unfold juniper_items_to_list_of_dicts
  simpa using foldl_append_singleton (fun item => buildRecord item.2) [] data

theorem nodup_keys_foldl_dictInsert (fs : List (α × β)) (init : List (α × β))
    (h : (init.map Prod.fst).Nodup) :
    ((fs.foldl (fun t kv => dictInsert t kv.1 kv.2) init).map Prod.fst).Nodup := by
  induction fs generalizing init with
  | nil => simpa
  | cons p t ih =>
    rw [List.foldl_cons]
    exact ih _ (nodup_keys_dictInsert _ _ _ h)

theorem toFinset_keys_foldl_dictInsert (fs : List (α × β)) (init : List (α × β)) :
    ((fs.foldl (fun t kv => dictInsert t kv.1 kv.2) init).map Prod.fst).toFinset =
      (init.map Prod.fst).toFinset ∪ (fs.map Prod.fst).toFinset := by
  induction fs generalizing init with
  | nil => simp
  | cons p t ih =>
    rw [List.foldl_cons, ih, toFinset_keys_dictInsert]
    ext a
    simp only [Finset.mem_union, Finset.mem_insert, List.map_cons,
      List.toFinset_cons, List.mem_toFinset]
    tauto

theorem foldl_dictInsert_of_nodup (fs : List (α × β)) (init : List (α × β))
    (h : ((init ++ fs).map Prod.fst).Nodup) :
    fs.foldl (fun t kv => dictInsert t kv.1 kv.2) init = init ++ fs := by
  induction fs generalizing init with
  | nil => simp
  | cons p t ih =>
    obtain ⟨k, v⟩ := p
    have hfresh : k ∉ init.map Prod.fst := by
      intro hk
      rw [List.map_append] at h
      exact (List.nodup_append.mp h).2.2 hk (by simp)
    rw [List.foldl_cons]
    have h' : (((init ++ [(k, v)]) ++ t).map Prod.fst).Nodup := by
      rw [List.append_assoc]
      simpa using h
    rw [show dictInsert init k v = init ++ [(k, v)] from
      dictInsert_of_fresh init k v hfresh, ih _ h']
    simp

theorem buildRecord_keys_nodup (fs : List (String × String)) :
    ((buildRecord fs).map Prod.fst).Nodup :=
  nodup_keys_foldl_dictInsert fs [] (by simp)

theorem buildRecord_keys_toFinset (fs : List (String × String)) :
    ((buildRecord fs).map Prod.fst).toFinset = (fs.map Prod.fst).toFinset := by
  simpa [buildRecord] using toFinset_keys_foldl_dictInsert fs ([] : List (String × String))

theorem buildRecord_of_nodup_keys (fs : List (String × String))
    (h : (fs.map Prod.fst).Nodup) : buildRecord fs = fs := by
  simpa [buildRecord] using foldl_dictInsert_of_nodup fs [] (by simpa)

theorem buildRecord_idem (fs : List (String × String)) :
    buildRecord (buildRecord fs) = buildRecord fs :=
  buildRecord_of_nodup_keys _ (buildRecord_keys_nodup fs)

theorem alookup_foldl_dictInsert (fs : List (α × β)) (init : List (α × β)) (k : α) :
    alookup (fs.foldl (fun t kv => dictInsert t kv.1 kv.2) init) k =
      (alookup fs.reverse k).or (alookup init k) := by
  induction fs generalizing init with
  | nil => simp [alookup]
  | cons p t ih =>
    rw [List.foldl_cons, ih, List.reverse_cons, alookup_append]
    by_cases h : p.1 = k
    · subst h
      rw [alookup_dictInsert_self]
      cases alookup t.reverse p.1 <;> simp [alookup]
    · rw [alookup_dictInsert_ne _ _ _ _ fun hc => h hc.symm]
      cases alookup t.reverse k <;> simp [alookup, h]

theorem alookup_eq_find? (l : List (α × β)) (k : α) :
    alookup l k = (l.find? fun p => decide (p.1 = k)).map Prod.snd := by
  induction l with
  | nil => simp [alookup]
  | cons p t ih =>
    by_cases h : p.1 = k <;> simp [alookup, List.find?_cons, h, ih]

theorem alookup_buildRecord (fs : List (String × String)) (k : String) :
    alookup (buildRecord fs) k =
      (fs.reverse.find? fun p => decide (p.1 = k)).map Prod.snd := by
  rw [buildRecord, alookup_foldl_dictInsert, ← alookup_eq_find?]
  cases alookup fs.reverse k <;> simp [alookup]

end NormalizerLemmas

section DynAgreement

theorem dictInsert_encodeRecord (d : List (String × String)) (k v : String) :
    dictInsert (encodeRecord d) (PyVal.str k) (PyVal.str v) =
      encodeRecord (dictInsert d k v) := by
  induction d with
  | nil => rfl
  | cons p t ih =>
    simp only [encodeRecord] at ih ⊢
    by_cases h : p.1 = k <;> simp [dictInsert, h, PyVal.str.injEq, ih]

theorem foldlM_dynFieldStep_encode (fs : List (String × String))
    (temp : List (String × String)) :
    (fs.map fun kv => PyVal.tup [PyVal.str kv.1, PyVal.str kv.2]).foldlM
        dynFieldStep (encodeRecord temp) =
      Except.ok
        (encodeRecord (fs.foldl (fun t kv => dictInsert t kv.1 kv.2) temp)) := by
  induction fs generalizing temp with
  | nil => rfl
  | cons kv t ih =>
    have hstep : dynFieldStep (encodeRecord temp)
        (PyVal.tup [PyVal.str kv.1, PyVal.str kv.2]) =
        Except.ok (encodeRecord (dictInsert temp kv.1 kv.2)) := by
      show Except.ok
          (dictInsert (encodeRecord temp) (PyVal.str kv.1) (PyVal.str kv.2)) = _
      rw [dictInsert_encodeRecord]
    rw [List.map_cons, List.foldlM_cons, hstep]
    exact ih (dictInsert temp kv.1 kv.2)

theorem foldlM_dynItemStep_encode (data : List (String × List (String × String)))
    (acc : List (List (String × String))) :
    (data.map encodeItem).foldlM dynItemStep (acc.map encodeRecord) =
      Except.ok
        ((acc ++ data.map fun item => buildRecord item.2).map encodeRecord) := by
  induction data generalizing acc with
  | nil =>
    simp only [List.map_nil, List.foldlM_nil, List.append_nil]
    rfl
  | cons item t ih =>
    have hinner : (item.2.map fun kv =>
          PyVal.tup [PyVal.str kv.1, PyVal.str kv.2]).foldlM dynFieldStep [] =
        Except.ok (encodeRecord (buildRecord item.2)) :=
      foldlM_dynFieldStep_encode item.2 []
    have hstep : dynItemStep (acc.map encodeRecord) (encodeItem item) =
        Except.ok ((acc ++ [buildRecord item.2]).map encodeRecord) := by
      show ((item.2.map fun kv =>
            PyVal.tup [PyVal.str kv.1, PyVal.str kv.2]).foldlM dynFieldStep []) >>=
          (fun temp => pure (acc.map encodeRecord ++ [temp])) = _
      rw [hinner]
      show Except.ok (acc.map encodeRecord ++ [encodeRecord (buildRecord item.2)]) = _
      simp
    rw [List.map_cons, List.foldlM_cons, hstep]
    show (t.map encodeItem).foldlM dynItemStep
        ((acc ++ [buildRecord item.2]).map encodeRecord) = _
    rw [ih]
    simp

end DynAgreement

section Claims

/-- Claim C1 is false of the code: take the schema field set `{"a", "b"}`
(N = 2) and the single raw item `("k", [("a", "1")])`.
`juniper_items_to_list_of_dicts` never receives the schema's field set, so
the record it builds holds only the keys present in the item's pairs: it
has one key, not two, and no entry (no absent marker) for the declared
field `"b"`. -/
theorem record_keys_counterexample :
    ¬ ∀ r ∈ juniper_items_to_list_of_dicts [("k", [("a", "1")])],
        (recordKeys r).length = 2 ∧ "b" ∈ recordKeys r := by
  decide

/-- Claim C1 as amended: the key set of each canonical record equals the
set of keys appearing in that raw item's pair list (each key once); a
field declared in the schema but absent from the item's pairs is omitted
from the record, not mapped to an absent marker.  (So a record has exactly
N keys precisely when its item's pairs cover exactly the N declared
names.) -/
theorem record_keys_eq_item_keys
    (data : List (String × List (String × String))) (i : Nat)
    (r : List (String × String)) (item : String × List (String × String))
    (hr : (juniper_items_to_list_of_dicts data)[i]? = some r)
    (hi : data[i]? = some item) :
    (recordKeys r).toFinset = (item.2.map Prod.fst).toFinset ∧
      (recordKeys r).Nodup := by
  rw [juniper_items_to_list_of_dicts_eq_map, List.getElem?_map, hi,
    Option.map_some'] at hr
  obtain rfl : buildRecord item.2 = r := Option.some.inj hr
  exact ⟨buildRecord_keys_toFinset item.2, buildRecord_keys_nodup item.2⟩

/-- Witness for `record_keys_eq_item_keys` at a concrete input. -/
theorem record_keys_eq_item_keys_witness :
    (recordKeys [("a", "2")]).toFinset =
        (([("a", "1"), ("a", "2")] : List (String × String)).map Prod.fst).toFinset ∧
      (recordKeys [("a", "2")]).Nodup :=
  record_keys_eq_item_keys [("k", [("a", "1"), ("a", "2")])] 0 [("a", "2")]
    ("k", [("a", "1"), ("a", "2")]) (by decide) (by decide)

/-- Claim C2 fails on the code: with the connection opened and the YAML
definition file unreadable, line 215's `module.fail_json` raises
`SystemExit`, which the `except Exception` handler of line 227 does not
catch, so neither `dev.close()` (line 230 or 233) runs: the error is
returned with the connection still open.  (The `KeyError` path of line 220
leaks the same way.) -/
theorem connection_leak_on_unreadable_file :
    main ⟨true, "vmx1", "ntc", "ntc123", 830, none, "lldp.yml", "tables",
        "LLDPNeighborTable", "list_of_dicts", .ok (), .ioError, .ok [], "e",
        ["AnsibleModule", "json", "re", "sys", "shlex"]⟩ =
      (.failJson "Unable to find file: tables/lldp.yml",
        ⟨true, true, false, true⟩) := by
  rfl

/-- Claim C3 is false of the code: take the schema field set `{"a"}` and a
raw item carrying the undeclared key `"b"`.  The normalizer copies every
pair into the record, so `"b"` appears in the canonical record instead of
being dropped. -/
theorem extra_key_counterexample :
    "b" ∉ (["a"] : List String) ∧
      "b" ∈ recordKeys
        ((juniper_items_to_list_of_dicts [("k", [("b", "1")])]).headI) := by
  decide

/-- Claim C3 as amended: normalization never consults the schema's field
set; every key occurring in a raw item's pairs appears in the
corresponding canonical record (extra keys are preserved, not dropped). -/
theorem extra_keys_preserved
    (data : List (String × List (String × String))) (i : Nat)
    (item : String × List (String × String)) (k : String)
    (hi : data[i]? = some item) (hk : k ∈ item.2.map Prod.fst) :
    ∃ r, (juniper_items_to_list_of_dicts data)[i]? = some r ∧
      k ∈ recordKeys r := by
  refine ⟨buildRecord item.2, ?_, ?_⟩
  · rw [juniper_items_to_list_of_dicts_eq_map, List.getElem?_map, hi,
      Option.map_some']
  · show k ∈ (buildRecord item.2).map Prod.fst
    rw [← List.mem_toFinset, buildRecord_keys_toFinset, List.mem_toFinset]
    exact hk

/-- Witness for `extra_keys_preserved` at a concrete input. -/
theorem extra_keys_preserved_witness :
    ∃ r, (juniper_items_to_list_of_dicts [("k", [("b", "1")])])[0]? = some r ∧
      "b" ∈ recordKeys r :=
  extra_keys_preserved [("k", [("b", "1")])] 0 ("k", [("b", "1")]) "b"
    (by decide) (by decide)

/-- Claim C4: for every raw item sequence of length K the normalizer
returns exactly K canonical records, order-preserved: the record at each
index i is the dict built from the pair list of the raw item at index i
(no dropping, no deduplication). -/
theorem normalization_length_and_order
    (data : List (String × List (String × String))) :
    (juniper_items_to_list_of_dicts data).length = data.length ∧
      ∀ i : Nat, (juniper_items_to_list_of_dicts data)[i]? =
        (data[i]?).map fun item => buildRecord item.2 := by
  rw [juniper_items_to_list_of_dicts_eq_map]
  exact ⟨by simp, fun i => by simp⟩

/-- Claim C5: normalization is idempotent on its output shape — take any
canonical record sequence produced by the normalizer, re-encode each
record as an item carrying one pair per field (under an arbitrary table
key), and normalizing again returns the original sequence. -/
theorem normalization_idempotent
    (data : List (String × List (String × String)))
    (table_key : List (String × String) → String) :
    juniper_items_to_list_of_dicts
        ((juniper_items_to_list_of_dicts data).map fun r => (table_key r, r)) =
      juniper_items_to_list_of_dicts data := by
  rw [juniper_items_to_list_of_dicts_eq_map data,
    juniper_items_to_list_of_dicts_eq_map, List.map_map, List.map_map]
  exact List.map_congr_left fun item _ => by
    simp [Function.comp, buildRecord_idem]

/-- Claim C6 is false as stated: a definition source that parses fine but
lacks the requested name does not always yield the `SchemaNotFound` report
of line 220.  The lookup is `globals()[args['table']]`, and `globals()`
holds the module's own bindings: requesting `"Device"` (absent from the
loaded YAML mapping `["LLDPNeighborTable"]` but bound by the line-127
import) skips the `KeyError` branch, and the failure surfaces as the
generic uncaught-exception report instead. -/
theorem schema_not_found_counterexample :
    "Device" ∉ (["LLDPNeighborTable"] : List String) ∧
      isSchemaNotFound (main ⟨true, "vmx1", "ntc", "ntc123", 830, none,
          "lldp.yml", "tables", "Device", "list_of_dicts", .ok (),
          .ok ["LLDPNeighborTable"], .ok [], "TypeError",
          ["AnsibleModule", "json", "re", "sys", "shlex"]⟩).1 = false ∧
      (main ⟨true, "vmx1", "ntc", "ntc123", 830, none, "lldp.yml", "tables",
          "Device", "list_of_dicts", .ok (), .ok ["LLDPNeighborTable"],
          .ok [], "TypeError",
          ["AnsibleModule", "json", "re", "sys", "shlex"]⟩).1 =
        .failJson "Uncaught exception - please report: TypeError" := by
  decide

/-- Claim C6 as amended: when the parsed definition source lacks the
requested schema name AND the name does not collide with any name in the
script's global namespace — neither the bindings made by the script's own
statements (imports, helpers, doc strings, dunders) nor the names bound
by the line-237 star import — the invocation terminates with the
structured `SchemaNotFound` report of line 220, carrying the table name
and the file path — never a crash, never an empty success. -/
theorem schema_not_found_reported (e : Env) (tables : List String)
    (hpyez : e.hasPyez = true) (hext : endswith e.file ".yml" = true)
    (hopen : e.openRes = .ok ()) (hfile : e.fileRes = .ok tables)
    (htab : e.table ∉ tables) (hglob : e.table ∉ module_globals)
    (hstar : e.table ∉ e.starImportGlobals) :
    main e = (.failJsonTable "Unable to find Table in provided yaml file"
        e.table (os_path_join e.path e.file),
      ⟨true, true, false, true⟩) := by
  simp [main, hpyez, hext, hopen, hfile, htab, hglob, hstar]

/-- Witness for `schema_not_found_reported` at a concrete input. -/
theorem schema_not_found_reported_witness :
    main ⟨true, "vmx1", "ntc", "ntc123", 830, none, "lldp.yml", "tables",
        "FooTable", "list_of_dicts", .ok (), .ok ["LLDPNeighborTable"],
        .ok [], "e", ["AnsibleModule", "json", "re", "sys", "shlex"]⟩ =
      (.failJsonTable "Unable to find Table in provided yaml file" "FooTable"
          (os_path_join "tables" "lldp.yml"),
        ⟨true, true, false, true⟩) :=
  schema_not_found_reported _ ["LLDPNeighborTable"] (by decide) (by decide)
    rfl rfl (by decide) (by decide) (by decide)

/-- Claim C7: a `file` parameter that does not end in the recognized
`.yml` extension is rejected by the line-188 validation; the invocation
fails before `open(file_name)` is reached and before `Device(...).open()`
is attempted. -/
theorem bad_extension_rejected_early (e : Env)
    (hpyez : e.hasPyez = true) (hext : endswith e.file ".yml" = false) :
    main e = (.failJson "file must end with .yml extension",
      ⟨false, false, false, false⟩) := by
  simp [main, hpyez, hext]

/-- Witness for `bad_extension_rejected_early`: the module's own EXAMPLES
use `file=ntclldp.yaml`, which this validation rejects. -/
theorem bad_extension_rejected_early_witness :
    main ⟨true, "vmx1", "ntc", "ntc123", 830, none, "ntclldp.yaml", "tables",
        "NTCNeighborTable", "list_of_dicts", .ok (), .ok [], .ok [], "e",
        ["AnsibleModule", "json", "re", "sys", "shlex"]⟩ =
      (.failJson "file must end with .yml extension",
        ⟨false, false, false, false⟩) :=
  bad_extension_rejected_early _ (by decide) (by decide)

/-- Claim C8: when `Device(...).open()` raises, lines 202-205 report the
ConnectError-style structured failure; the YAML file is never opened (no
schema load) and no connection was established, so nothing is leaked. -/
theorem connect_failure_is_structured (e : Env) (err : String)
    (hpyez : e.hasPyez = true) (hext : endswith e.file ".yml" = true)
    (hopen : e.openRes = .error err) :
    main e = (.failJson ("unable to connect to " ++ e.host ++ ": " ++ err),
      ⟨true, false, false, false⟩) := by
  simp [main, hpyez, hext, hopen]

/-- Witness for `connect_failure_is_structured` at a concrete input. -/
theorem connect_failure_is_structured_witness :
    main ⟨true, "vmx1", "ntc", "badpw", 830, none, "lldp.yml", "tables",
        "LLDPNeighborTable", "list_of_dicts", .error "ConnectAuthError",
        .ok [], .ok [], "e", ["AnsibleModule", "json", "re", "sys", "shlex"]⟩ =
      (.failJson ("unable to connect to " ++ "vmx1" ++ ": " ++ "ConnectAuthError"),
        ⟨true, false, false, false⟩) :=
  connect_failure_is_structured _ "ConnectAuthError" (by decide) (by decide) rfl

/-- Claim C9 is false as stated: the function is not total on malformed
raw items, and it produces no absent markers.  A raw item that is a
1-tuple fails tuple unpacking at line 147 — the run raises `ValueError`
instead of yielding a record. -/
theorem normalization_dyn_counterexample :
    juniper_items_to_list_of_dicts_dyn [PyVal.tup [PyVal.str "k"]] =
      Except.error "ValueError: unpack" := by
  rfl

/-- Claim C9 as amended: on every well-formed input — each item a
`(table_key, table_fields)` 2-tuple whose fields are `(key, value)`
2-tuples — normalization is a pure, total function: the dynamic semantics
raises nothing and returns exactly the records of the typed normalizer.
Malformed items, by `normalization_dyn_counterexample`, raise instead of
producing absent-marker records. -/
theorem normalization_total_on_wellformed
    (data : List (String × List (String × String))) :
    juniper_items_to_list_of_dicts_dyn (data.map encodeItem) =
      Except.ok ((juniper_items_to_list_of_dicts data).map encodeRecord) := by
  rw [juniper_items_to_list_of_dicts_eq_map]
  simpa [juniper_items_to_list_of_dicts_dyn] using
    foldlM_dynItemStep_encode data []

/-- Claim C10: when an item's pair list contains several pairs with the
same field name, the canonical record maps that name to the value of the
last such pair in declared order: dict lookup in the record at each index
equals first-match lookup over that item's reversed pair list. -/
theorem duplicate_keys_last_pair_wins
    (data : List (String × List (String × String))) (i : Nat) (k : String) :
    ((juniper_items_to_list_of_dicts data)[i]?).map (fun r => alookup r k) =
      (data[i]?).map fun item =>
        (item.2.reverse.find? fun p => decide (p.1 = k)).map Prod.snd := by
  rw [juniper_items_to_list_of_dicts_eq_map, List.getElem?_map, Option.map_map]
  cases data[i]? with
  | none => rfl
  | some item => simp [Function.comp, alookup_buildRecord]

end Claims

end JunosGetTable
